import Mathlib

/-!
Verification of the trade-referee backend engine.

The valuation/grading engine (`src/lib/scoring.ts`, `src/lib/simulation.ts`)
is not part of the available sources; following the specification those
components are modelled here from the spec text (each such definition is
marked `Modelled from the spec:`).  The route-level iteration clamp
(`src/routes/api.ts`) and the Stripe subscription verifier
(`src/stripe/client.ts`) are embedded directly from their sources.
All real numbers of the engine are modelled as rationals.
-/

namespace TradeReferee

/-- A fantasy player snapshot.  `projectedPoints` is `none` when the data
source supplied no projection; the valuation model treats that as 0. -/
structure Player where
  id : String
  name : String
  position : String
  team : String
  projectedPoints : Option ℚ
deriving DecidableEq

/-- Per-unit scoring weights over the fixed category set used by the tests. -/
structure ScoringRules where
  passingYards : ℚ
  passingTouchdowns : ℚ
  interceptions : ℚ
  rushingYards : ℚ
  rushingTouchdowns : ℚ
  receivingYards : ℚ
  receivingTouchdowns : ℚ
  receptions : ℚ
  fumbles : ℚ
deriving DecidableEq

/-- A fantasy team: id, display data and its roster. -/
structure Team where
  id : String
  name : String
  owner : String
  roster : List Player
deriving DecidableEq

/-- League-level settings. -/
structure LeagueSettings where
  rosterPositions : List String
  playoffTeams : Nat
  regularSeasonWeeks : Nat
  currentWeek : Nat
deriving DecidableEq

/-- A league: teams, scoring rules and settings. -/
structure League where
  id : String
  name : String
  teams : List Team
  scoring : ScoringRules
  settings : LeagueSettings
deriving DecidableEq

/-- A trade proposal: player ids leaving team A and player ids leaving
team B. -/
structure Trade where
  teamAOut : List String
  teamBOut : List String
deriving DecidableEq

/-- Letter grades. -/
inductive Letter
  | A
  | B
  | C
  | D
  | F
deriving DecidableEq

/-- Risk markers attached to a graded trade. -/
inductive RiskTag
  | lopsidedValue
  | lowSampleProjection
deriving DecidableEq

/-- Per-team value movement caused by a trade. -/
structure TeamImpact where
  teamId : String
  incoming : ℚ
  outgoing : ℚ
  netDelta : ℚ
deriving DecidableEq

/-- Directional fairness measurement. -/
structure Fairness where
  towardsTeamId : Option String
  deltaPercent : ℚ
  explanation : String
deriving DecidableEq

/-- One weighted explanation entry. -/
structure RationaleEntry where
  factor : String
  impact : ℚ
  text : String
deriving DecidableEq

/-- The grade result assembled by the trade analyzer. -/
structure GradeResult where
  score : ℚ
  letter : Letter
  teamImpacts : List TeamImpact
  fairness : Fairness
  rationale : List RationaleEntry
  riskTags : List RiskTag
deriving DecidableEq

/-- The analyzer error taxonomy relevant to trade analysis. -/
inductive AnalysisError
  | invalidTrade
deriving DecidableEq

/-- Executable minimum on rationals (kernel-reducible). -/
def qmin (a b : ℚ) : ℚ := if a ≤ b then a else b

/-- Executable maximum on rationals (kernel-reducible). -/
def qmax (a b : ℚ) : ℚ := if a ≤ b then b else a

/-- Executable absolute value on rationals (kernel-reducible). -/
def qabs (a : ℚ) : ℚ := if a < 0 then -a else a

theorem qmin_eq (a b : ℚ) : qmin a b = min a b := by
  unfold qmin
  rw [min_def]

theorem qmax_eq (a b : ℚ) : qmax a b = max a b := by
  unfold qmax
  rw [max_def]

theorem qabs_eq (a : ℚ) : qabs a = |a| := by
  unfold qabs
  by_cases h : a < 0
  · rw [if_pos h, abs_of_neg h]
  · rw [if_neg h, abs_of_nonneg (not_lt.mp h)]

/-- Modelled from the spec: the enumerated positional scarcity table of the
Valuation Model (4.1); starting-relevant positions weigh higher. -/
def positionMultipliers : List (String × ℚ) :=
  [("QB", 6 / 5), ("RB", 23 / 20), ("WR", 11 / 10), ("TE", 21 / 20),
   ("K", 4 / 5), ("DEF", 9 / 10)]

/-- Modelled from the spec: positional multiplier lookup; unknown positions
weigh 1. -/
def positionMultiplier (pos : String) : ℚ :=
  ((positionMultipliers.find? (fun e => e.1 == pos)).map Prod.snd).getD 1

/-- Modelled from the spec: the Valuation Model (4.1).  The projection is
already rules-adjusted, so the scoring rules and settings are carried but the
value is the non-negative projection times the positional multiplier; a
missing projection counts as 0. -/
def playerValue (p : Player) (_rules : ScoringRules)
    (_settings : LeagueSettings) : ℚ :=
  qmax (p.projectedPoints.getD 0) 0 * positionMultiplier p.position

/-- The team (if any) whose roster holds the given player id. -/
def findTeamOf (league : League) (pid : String) : Option Team :=
  league.teams.find? (fun t => t.roster.any (fun p => p.id == pid))

/-- Look a player id up on one team roster. -/
def resolvePlayer (t : Team) (pid : String) : Option Player :=
  t.roster.find? (fun p => p.id == pid)

/-- Modelled from the spec: resolve one side of a trade.  The side's claiming
team is the team holding its first id; every id of the side must resolve on
that roster, otherwise the side is unresolvable. -/
def resolveSide (league : League) (ids : List String) :
    Option (Team × List Player) :=
  match ids with
  | [] => none
  | pid0 :: _ =>
    match findTeamOf league pid0 with
    | none => none
    | some t =>
      match ids.mapM (fun pid => resolvePlayer t pid) with
      | none => none
      | some ps => some (t, ps)

/-- Total trade value of a list of players under the league rules. -/
def totalValue (league : League) (ps : List Player) : ℚ :=
  (ps.map (fun p => playerValue p league.scoring league.settings)).sum

/-- Modelled from the spec: the Fairness Engine normalization (4.3).
Equal incoming values give 0; the measurement grows to 100 as one side's
gain dominates. -/
def fairDeltaPercent (vA vB : ℚ) : ℚ :=
  if vA = vB then 0
  else 100 * (qmax vA vB - qmin vA vB) / (qmax vA vB + qmin vA vB)

/-- Modelled from the spec: directional fairness (4.3).  `vA` is the total
value leaving team A (arriving at team B) and symmetrically for `vB`; the
attribution names the team whose net delta is strictly larger. -/
def computeFairness (tA tB : Team) (vA vB : ℚ) : Fairness :=
  { towardsTeamId :=
      if vA < vB then some tA.id
      else if vB < vA then some tB.id
      else none
  , deltaPercent := fairDeltaPercent vA vB
  , explanation :=
      if vA = vB then "The trade is perfectly even in value"
      else "The trade favors the team receiving more total value" }

/-- Modelled from the spec: overall score (4.3), `100 - deltaPercent`
clamped to the range 0 to 100. -/
def tradeScore (vA vB : ℚ) : ℚ :=
  qmin 100 (qmax 0 (100 - fairDeltaPercent vA vB))

/-- Modelled from the spec: the named grading threshold table (4.4). -/
def gradeThresholds : List (ℚ × Letter) :=
  [(90, Letter.A), (80, Letter.B), (70, Letter.C), (60, Letter.D)]

/-- Modelled from the spec: threshold mapping from score to letter (4.4);
scores under every threshold grade F. -/
def gradeLetter (score : ℚ) : Letter :=
  ((gradeThresholds.find? (fun e => decide (e.1 ≤ score))).map Prod.snd).getD
    Letter.F

/-- Modelled from the spec: the lopsided-value risk threshold (4.4). -/
def lopsidedThreshold : ℚ := 40

/-- Modelled from the spec: risk tags (4.4); lopsided-value above the
threshold, low-sample-projection when a traded projection is 0 or absent. -/
def computeRiskTags (deltaPercent : ℚ) (traded : List Player) :
    List RiskTag :=
  (if lopsidedThreshold ≤ deltaPercent then [RiskTag.lopsidedValue] else [])
    ++ (if traded.any (fun p => decide (p.projectedPoints.getD 0 = 0)) then
          [RiskTag.lowSampleProjection]
        else [])

/-- Lexicographic order on character lists by code point.  Used for the
rationale tie-break so the ordering stays fully computable. -/
def charListLe : List Char → List Char → Bool
  | [], _ => true
  | _ :: _, [] => false
  | a :: as, b :: bs =>
    if a.toNat < b.toNat then true
    else if b.toNat < a.toNat then false
    else charListLe as bs

/-- Lexicographic order on strings by code point. -/
def strLe (a b : String) : Bool := charListLe a.data b.data

theorem charListLe_total :
    ∀ a b, charListLe a b = true ∨ charListLe b a = true := by
  intro a
  induction a with
  | nil => intro b; exact Or.inl rfl
  | cons x xs ih =>
    intro b
    cases b with
    | nil => exact Or.inr rfl
    | cons y ys =>
      by_cases h1 : x.toNat < y.toNat
      · left
        simp [charListLe, h1]
      · by_cases h2 : y.toNat < x.toNat
        · right
          simp [charListLe, h1, h2]
        · rcases ih ys with h | h
          · left
            simp [charListLe, h1, h2, h]
          · right
            simp [charListLe, h1, h2, h]

theorem charListLe_trans :
    ∀ a b c, charListLe a b = true → charListLe b c = true →
      charListLe a c = true := by
  intro a
  induction a with
  | nil => intro b c _ _; rfl
  | cons x xs ih =>
    intro b c hab hbc
    cases b with
    | nil => simp [charListLe] at hab
    | cons y ys =>
      cases c with
      | nil => simp [charListLe] at hbc
      | cons z zs =>
        simp only [charListLe] at hab hbc ⊢
        by_cases hxy : x.toNat < y.toNat
        · by_cases hyz : y.toNat < z.toNat
          · simp [show x.toNat < z.toNat by omega]
          · by_cases hzy : z.toNat < y.toNat
            · simp [hyz, hzy] at hbc
            · simp [show x.toNat < z.toNat by omega]
        · by_cases hyx : y.toNat < x.toNat
          · simp [hxy, hyx] at hab
          · by_cases hyz : y.toNat < z.toNat
            · simp [show x.toNat < z.toNat by omega]
            · by_cases hzy : z.toNat < y.toNat
              · simp [hyz, hzy] at hbc
              · have hxz : ¬ x.toNat < z.toNat := by omega
                have hzx : ¬ z.toNat < x.toNat := by omega
                simp only [hxy, hyx, if_false, ite_false, if_neg] at hab
                simp only [hyz, hzy, if_false, ite_false, if_neg] at hbc
                simp [hxz, hzx]
                exact ih ys zs hab hbc

/-- The rationale ordering of the spec (4.5): descending absolute impact,
ties broken by ascending factor name. -/
def rationaleLE (a b : RationaleEntry) : Prop :=
  qabs b.impact < qabs a.impact ∨
    (qabs a.impact = qabs b.impact ∧ strLe a.factor b.factor = true)

instance : DecidableRel rationaleLE := fun a b => by
  unfold rationaleLE
  exact inferInstance

instance : IsTotal RationaleEntry rationaleLE where
  total a b := by
    unfold rationaleLE
    rcases lt_trichotomy (qabs a.impact) (qabs b.impact) with h | h | h
    · exact Or.inr (Or.inl h)
    · rcases charListLe_total a.factor.data b.factor.data with hf | hf
      · exact Or.inl (Or.inr ⟨h, hf⟩)
      · exact Or.inr (Or.inr ⟨h.symm, hf⟩)
    · exact Or.inl (Or.inl h)

instance : IsTrans RationaleEntry rationaleLE where
  trans a b c hab hbc := by
    unfold rationaleLE at hab hbc ⊢
    rcases hab with hab | ⟨eab, nab⟩
    · rcases hbc with hbc | ⟨ebc, _⟩
      · exact Or.inl (hbc.trans hab)
      · exact Or.inl (ebc ▸ hab)
    · rcases hbc with hbc | ⟨ebc, nbc⟩
      · exact Or.inl (eab ▸ hbc)
      · exact Or.inr ⟨eab.trans ebc, charListLe_trans _ _ _ nab nbc⟩

/-- Modelled from the spec: the Rationale Generator (4.5).  It always emits
a value-differential entry and a positional-value entry, both weighted in
the range -1 to 1, and sorts them by the spec ordering. -/
def generateRationale (vA vB : ℚ) (deltaPercent : ℚ) :
    List RationaleEntry :=
  List.insertionSort rationaleLE
    [ { factor := "Value Differential"
      , impact := -(deltaPercent / 100)
      , text := "How far apart the two sides are in total value" }
    , { factor := "Positional Value"
      , impact := if vA + vB = 0 then 0 else (vA - vB) / (vA + vB)
      , text := "Which side sends out the scarcer positional value" } ]

/-- Modelled from the spec: assemble the grade result for a resolved trade
(4.6), with `psA` leaving team `tA` and `psB` leaving team `tB`. -/
def buildResult (league : League) (tA : Team) (psA : List Player)
    (tB : Team) (psB : List Player) : GradeResult :=
  let vA := totalValue league psA
  let vB := totalValue league psB
  { score := tradeScore vA vB
  , letter := gradeLetter (tradeScore vA vB)
  , teamImpacts :=
      [⟨tA.id, vB, vA, vB - vA⟩, ⟨tB.id, vA, vB, vA - vB⟩]
  , fairness := computeFairness tA tB vA vB
  , rationale := generateRationale vA vB (fairDeltaPercent vA vB)
  , riskTags := computeRiskTags (fairDeltaPercent vA vB) (psA ++ psB) }

/-- Modelled from the spec: the Trade Analyzer pipeline (4.6).  Validation
failures short-circuit with `InvalidTradeError`; otherwise the pipeline
assembles the full grade result. -/
def analyzeTrade (league : League) (trade : Trade) :
    Except AnalysisError GradeResult :=
  if trade.teamAOut.isEmpty || trade.teamBOut.isEmpty then
    Except.error AnalysisError.invalidTrade
  else if trade.teamAOut.any (fun pid =>
      trade.teamBOut.any (fun q => pid == q)) then
    Except.error AnalysisError.invalidTrade
  else
    match resolveSide league trade.teamAOut,
        resolveSide league trade.teamBOut with
    | some (tA, psA), some (tB, psB) =>
      Except.ok (buildResult league tA psA tB psB)
    | some _, none => Except.error AnalysisError.invalidTrade
    | none, _ => Except.error AnalysisError.invalidTrade

/-! ### Season simulator (modelled from the spec, 4.7, 4.8, 5b) -/

/-- Modelled from the spec: one step of the explicit seeded linear
congruential generator used for reproducible randomness. -/
def lcgNext (s : Nat) : Nat := (1103515245 * s + 12345) % 2 ^ 31

/-- A pseudo-random rational in the unit interval derived from a seed. -/
def randFrac (s : Nat) : ℚ := (lcgNext s : ℚ) / 2 ^ 31

/-- Modelled from the spec: sample a weekly team score.  Each player score
is drawn uniformly between half and three halves of the player value, so it
is centered on the rules-adjusted projection with spread proportional to
its magnitude; the seed is threaded through the roster. -/
def sampleTeamWeek (league : League) (seed : Nat) (t : Team) : ℚ × Nat :=
  t.roster.foldl
    (fun (acc : ℚ × Nat) p =>
      let s := lcgNext acc.2
      (acc.1 + playerValue p league.scoring league.settings
          * (1 / 2 + randFrac s), s))
    (0, seed)

/-- Weekly scores for every team, threading one seed across the league. -/
def weekScores (league : League) (seed : Nat) : List (String × ℚ) :=
  (league.teams.foldl
    (fun (acc : List (String × ℚ) × Nat) t =>
      let r := sampleTeamWeek league acc.2 t
      (acc.1 ++ [(t.id, r.1)], r.2))
    ([], seed)).1

/-- Modelled from the spec: resolve one week of head-to-head matchups by
pairing consecutive teams of the (rotated) order; the higher weekly score
wins, a tie or a bye gives no win. -/
def weekWins : List (String × ℚ) → List (String × Nat)
  | a :: b :: rest =>
    (if b.2 < a.2 then [(a.1, 1), (b.1, 0)]
     else if a.2 < b.2 then [(a.1, 0), (b.1, 1)]
     else [(a.1, 0), (b.1, 0)]) ++ weekWins rest
  | [x] => [(x.1, 0)]
  | [] => []

/-- Modelled from the spec: accumulate standings (wins and cumulative
points per team) across the remaining weeks; the round-robin schedule is
realized by rotating the pairing order each week. -/
def seasonOutcome (league : League) (weeks : Nat) (seed : Nat) :
    List (String × Nat × ℚ) :=
  (List.range weeks).foldl
    (fun standings w =>
      let scores := weekScores league (seed + 7919 * w)
      let wins := weekWins (scores.rotateLeft w)
      standings.map (fun e =>
        (e.1,
         e.2.1 + ((wins.find? (fun x => x.1 == e.1)).map Prod.snd).getD 0,
         e.2.2 + ((scores.find? (fun x => x.1 == e.1)).map Prod.snd).getD 0)))
    (league.teams.map (fun t => (t.id, 0, (0 : ℚ))))

/-- Standing order: more wins first, ties broken by cumulative points. -/
def standingsBetter (a b : String × Nat × ℚ) : Prop :=
  b.2.1 < a.2.1 ∨ (a.2.1 = b.2.1 ∧ b.2.2 ≤ a.2.2)

instance : DecidableRel standingsBetter := fun a b => by
  unfold standingsBetter
  exact inferInstance

/-- Modelled from the spec: the teams seeded into the playoffs, the top
`playoffTeams` of the standings by wins with points as tie-break. -/
def playoffQualified (league : League)
    (standings : List (String × Nat × ℚ)) : List String :=
  ((List.insertionSort standingsBetter standings).take
    league.settings.playoffTeams).map (fun e => e.1)

/-- Modelled from the spec: apply the trade to the rosters; when either
side does not resolve the league is left unchanged (the simulator does not
re-validate trades). -/
def applyTrade (league : League) (trade : Trade) : League :=
  match resolveSide league trade.teamAOut,
      resolveSide league trade.teamBOut with
  | some (tA, psA), some (tB, psB) =>
    { league with
      teams := league.teams.map (fun t =>
        if t.id == tA.id then
          { t with roster :=
              t.roster.filter (fun p =>
                !(trade.teamAOut.any (fun q => p.id == q))) ++ psB }
        else if t.id == tB.id then
          { t with roster :=
              t.roster.filter (fun p =>
                !(trade.teamBOut.any (fun q => p.id == q))) ++ psA }
        else t) }
  | _, _ => league

/-- Aggregated statistics of one scenario. -/
structure ScenarioStats where
  playoffProbability : List (String × ℚ)
  meanPoints : List (String × ℚ)
deriving DecidableEq

/-- The simulation result shape of the spec. -/
structure SimulationResult where
  withTrade : ScenarioStats
  withoutTrade : ScenarioStats
  delta : List (String × ℚ)
  iterationsUsed : Nat
  truncated : Bool
deriving DecidableEq

/-- The simulator error taxonomy. -/
inductive SimulationError
  | simulationParameter
deriving DecidableEq

/-- Modelled from the spec: the Simulation Aggregator (4.8); merge the
per-iteration standings of one scenario into qualification probabilities
and mean cumulative points per team. -/
def scenarioStats (league : League)
    (outs : List (List (String × Nat × ℚ))) (iters : Nat) : ScenarioStats :=
  let teams := league.teams.map (fun t => t.id)
  { playoffProbability := teams.map (fun tid =>
      (tid,
       ((outs.filter (fun st =>
           (playoffQualified league st).any (fun q => q == tid))).length : ℚ)
         / (iters : ℚ)))
  , meanPoints := teams.map (fun tid =>
      (tid,
       (outs.map (fun st =>
          ((st.find? (fun e => e.1 == tid)).map (fun e => e.2.2)).getD 0)).sum
         / (iters : ℚ))) }

/-- Modelled from the spec: the simulation core.  Each iteration derives
its seed from the base seed plus the iteration index and runs the same
random draw with and without the trade applied (paired comparison); the
aggregator then produces both scenario statistics and the per-team
trade-attributable probability delta. -/
def simulateCore (league : League) (trade : Trade) (weeks iters : Nat)
    (seed : Nat) : SimulationResult :=
  let leagueWith := applyTrade league trade
  let withOuts := (List.range iters).map (fun i =>
      seasonOutcome leagueWith weeks (seed + i))
  let withoutOuts := (List.range iters).map (fun i =>
      seasonOutcome league weeks (seed + i))
  let sWith := scenarioStats league withOuts iters
  let sWithout := scenarioStats league withoutOuts iters
  { withTrade := sWith
  , withoutTrade := sWithout
  , delta := sWith.playoffProbability.map (fun e =>
      (e.1,
       e.2 - ((sWithout.playoffProbability.find?
                (fun x => x.1 == e.1)).map Prod.snd).getD 0))
  , iterationsUsed := iters
  , truncated := false }

/-- Modelled from the spec: the Season Simulator entry point (4.7).  A
non-positive `weeksRemaining` or `iterations` raises
`SimulationParameterError` synchronously; otherwise the pure seeded core
runs to completion. -/
def simulateLeague (league : League) (trade : Trade)
    (weeksRemaining iterations : Int) (seed : Nat) :
    Except SimulationError SimulationResult :=
  if weeksRemaining ≤ 0 ∨ iterations ≤ 0 then
    Except.error SimulationError.simulationParameter
  else
    Except.ok (simulateCore league trade weeksRemaining.toNat
      iterations.toNat seed)

/-! ### Route-level iteration clamp (embedded from src/routes/api.ts) -/

/-- Embedded from `src/routes/api.ts`:
`Math.min(iterations || config.DEFAULT_SIMULATION_ITERATIONS,
config.MAX_SIMULATION_ITERATIONS)`.  `none` models an absent request field
and `0` is falsy in JavaScript, so both fall back to the default before the
ceiling is applied. -/
def routeSimIterations (iterations : Option Int)
    (defaultIterations maxIterations : Int) : Int :=
  min
    (match iterations with
     | some i => if i = 0 then defaultIterations else i
     | none => defaultIterations)
    maxIterations

/-! ### Stripe subscription verification (embedded from src/stripe/client.ts) -/

/-- A cache entry of the Stripe client: tier string and expiry instant. -/
structure CacheEntry where
  tier : String
  expires : Int
deriving DecidableEq

/-- The result shape of `verifySubscription`: a tier string and an optional
JWT token. -/
structure VerifyResult where
  tier : String
  token : Option String
deriving DecidableEq

/-- The external world of the Stripe client: the two Stripe API calls (which
may throw, modelled as `Except.error`) and the opaque JWT signer. -/
structure StripeEnv where
  customersList : String → Except String (List String)
  subscriptionsList : String → Except String (List String)
  generateJWT : String → String → String

/-- The client cache, keyed by email. -/
abbrev StripeCache := List (String × CacheEntry)

/-- `this.cache.get(email)`. -/
def cacheGet (cache : StripeCache) (email : String) : Option CacheEntry :=
  (cache.find? (fun e => e.1 == email)).map Prod.snd

/-- Embedded from `src/stripe/client.ts` (`cacheResult`): store the tier
with expiry `now + ttl`. -/
def cacheResult (cache : StripeCache) (email tier : String)
    (now ttl : Int) : StripeCache :=
  (email, ⟨tier, now + ttl⟩) :: cache.filter (fun e => !(e.1 == email))

/-- Embedded from `src/stripe/client.ts`: the un-cached path of
`verifySubscription` — customer search then active-subscription search;
each Stripe call may throw, which this path propagates. -/
def verifyLookup (env : StripeEnv) (cache : StripeCache) (now ttl : Int)
    (email : String) : Except String (VerifyResult × StripeCache) :=
  match env.customersList email with
  | Except.error e => Except.error e
  | Except.ok [] =>
    Except.ok (⟨"free", none⟩, cacheResult cache email "free" now ttl)
  | Except.ok (cid :: _) =>
    match env.subscriptionsList cid with
    | Except.error e => Except.error e
    | Except.ok subs =>
      if subs.isEmpty then
        Except.ok (⟨"free", none⟩, cacheResult cache email "free" now ttl)
      else
        Except.ok (⟨"pro", some (env.generateJWT email "pro")⟩,
          cacheResult cache email "pro" now ttl)

/-- Embedded from `src/stripe/client.ts`: the body of the `try` block of
`verifySubscription` — a fresh, unexpired cache entry is served directly,
anything else goes through the Stripe lookups. -/
def verifyBody (env : StripeEnv) (cache : StripeCache) (now ttl : Int)
    (email : String) : Except String (VerifyResult × StripeCache) :=
  match cacheGet cache email with
  | some cached =>
    if now < cached.expires then
      if cached.tier = "pro" then
        Except.ok (⟨"pro", some (env.generateJWT email "pro")⟩, cache)
      else
        Except.ok (⟨"free", none⟩, cache)
    else
      verifyLookup env cache now ttl email
  | none => verifyLookup env cache now ttl email

/-- Embedded from `src/stripe/client.ts` (`verifySubscription`): the
`try`/`catch` wrapper — any internal error degrades to the free tier with
no token and an unchanged cache. -/
def verifySubscription (env : StripeEnv) (cache : StripeCache)
    (now ttl : Int) (email : String) : VerifyResult × StripeCache :=
  match verifyBody env cache now ttl email with
  | Except.ok r => r
  | Except.error _ => (⟨"free", none⟩, cache)

/-! ### Concrete test fixtures (embedded from src/tests/scoring.test.js) -/

instance {ε α : Type} [DecidableEq ε] [DecidableEq α] :
    DecidableEq (Except ε α) := fun x y =>
  match x, y with
  | Except.ok a, Except.ok b =>
    if h : a = b then Decidable.isTrue (congrArg Except.ok h)
    else Decidable.isFalse (fun hc => h (Except.ok.inj hc))
  | Except.ok _, Except.error _ =>
    Decidable.isFalse (fun hc => Except.noConfusion hc)
  | Except.error _, Except.ok _ =>
    Decidable.isFalse (fun hc => Except.noConfusion hc)
  | Except.error e, Except.error f =>
    if h : e = f then Decidable.isTrue (congrArg Except.error h)
    else Decidable.isFalse (fun hc => h (Except.error.inj hc))

/-- The mock league of `src/tests/scoring.test.js`. -/
def mockLeague : League :=
  { id := "test-league"
  , name := "Test League"
  , teams :=
      [ { id := "team1", name := "Team A", owner := "Owner A"
        , roster :=
            [ ⟨"player1", "Test Player 1", "QB", "TEST", some 20⟩
            , ⟨"player2", "Test Player 2", "RB", "TEST", some 15⟩ ] }
      , { id := "team2", name := "Team B", owner := "Owner B"
        , roster :=
            [ ⟨"player3", "Test Player 3", "WR", "TEST", some 12⟩
            , ⟨"player4", "Test Player 4", "TE", "TEST", some 8⟩ ] } ]
  , scoring := ⟨1 / 25, 4, -2, 1 / 10, 6, 1 / 10, 6, 1 / 2, -2⟩
  , settings := ⟨[], 4, 14, 8⟩ }

/-- The mock trade of `src/tests/scoring.test.js`: QB for WR. -/
def mockTrade : Trade := ⟨["player1"], ["player3"]⟩

/-- A default grade used only to name the mock analysis output. -/
def emptyGrade : GradeResult :=
  ⟨0, Letter.F, [], ⟨none, 0, ""⟩, [], []⟩

/-- The grade the analyzer produces on the mock fixture. -/
def mockGrade : GradeResult :=
  (analyzeTrade mockLeague mockTrade).toOption.getD emptyGrade

/-! ### Helper lemmas -/

theorem analyzeTrade_ok_elim {league : League} {trade : Trade}
    {res : GradeResult} (h : analyzeTrade league trade = Except.ok res) :
    ∃ tA psA tB psB,
      resolveSide league trade.teamAOut = some (tA, psA) ∧
      resolveSide league trade.teamBOut = some (tB, psB) ∧
      res = buildResult league tA psA tB psB := by
  unfold analyzeTrade at h
  split at h
  · exact Except.noConfusion h
  · split at h
    · exact Except.noConfusion h
    · split at h
      · rename_i tA psA tB psB h1 h2
        exact ⟨tA, psA, tB, psB, h1, h2, (Except.ok.inj h).symm⟩
      · exact Except.noConfusion h
      · exact Except.noConfusion h

theorem buildResult_score (league : League) (tA : Team) (psA : List Player)
    (tB : Team) (psB : List Player) :
    (buildResult league tA psA tB psB).score =
      tradeScore (totalValue league psA) (totalValue league psB) := rfl

theorem buildResult_letter (league : League) (tA : Team) (psA : List Player)
    (tB : Team) (psB : List Player) :
    (buildResult league tA psA tB psB).letter =
      gradeLetter (tradeScore (totalValue league psA)
        (totalValue league psB)) := rfl

theorem buildResult_teamImpacts (league : League) (tA : Team)
    (psA : List Player) (tB : Team) (psB : List Player) :
    (buildResult league tA psA tB psB).teamImpacts =
      [⟨tA.id, totalValue league psB, totalValue league psA,
          totalValue league psB - totalValue league psA⟩,
       ⟨tB.id, totalValue league psA, totalValue league psB,
          totalValue league psA - totalValue league psB⟩] := rfl

theorem buildResult_fairness (league : League) (tA : Team)
    (psA : List Player) (tB : Team) (psB : List Player) :
    (buildResult league tA psA tB psB).fairness =
      computeFairness tA tB (totalValue league psA)
        (totalValue league psB) := rfl

theorem buildResult_rationale (league : League) (tA : Team)
    (psA : List Player) (tB : Team) (psB : List Player) :
    (buildResult league tA psA tB psB).rationale =
      generateRationale (totalValue league psA) (totalValue league psB)
        (fairDeltaPercent (totalValue league psA)
          (totalValue league psB)) := rfl

theorem gradeLetter_eq (s : ℚ) :
    gradeLetter s =
      (if 90 ≤ s then Letter.A
       else if 80 ≤ s then Letter.B
       else if 70 ≤ s then Letter.C
       else if 60 ≤ s then Letter.D
       else Letter.F) := by
  unfold gradeLetter gradeThresholds
  by_cases h90 : (90 : ℚ) ≤ s <;> by_cases h80 : (80 : ℚ) ≤ s <;>
    by_cases h70 : (70 : ℚ) ≤ s <;> by_cases h60 : (60 : ℚ) ≤ s <;>
    simp [List.find?, h90, h80, h70, h60]

theorem tradeScore_nonneg (vA vB : ℚ) : 0 ≤ tradeScore vA vB := by
  unfold tradeScore
  rw [qmin_eq, qmax_eq]
  exact le_min (by norm_num) (le_max_left 0 _)

theorem tradeScore_le_100 (vA vB : ℚ) : tradeScore vA vB ≤ 100 := by
  unfold tradeScore
  rw [qmin_eq]
  exact min_le_left _ _

/-! ### Claim theorems -/

/-- C1: for every valid trade the analyzer returns a score within the range
0 to 100 and the letter prescribed by the threshold table: at least 90 is
A, at least 80 is B, at least 70 is C, at least 60 is D, anything else F. -/
theorem C1_score_range_and_letter_thresholds (league : League)
    (trade : Trade) (res : GradeResult)
    (h : analyzeTrade league trade = Except.ok res) :
    0 ≤ res.score ∧ res.score ≤ 100 ∧
      res.letter =
        (if 90 ≤ res.score then Letter.A
         else if 80 ≤ res.score then Letter.B
         else if 70 ≤ res.score then Letter.C
         else if 60 ≤ res.score then Letter.D
         else Letter.F) := by
  obtain ⟨tA, psA, tB, psB, -, -, rfl⟩ := analyzeTrade_ok_elim h
  rw [buildResult_score, buildResult_letter]
  exact ⟨tradeScore_nonneg _ _, tradeScore_le_100 _ _, gradeLetter_eq _⟩

/-- C1 witness: the QB-for-WR mock trade of the test file grades inside the
range with the table letter. -/
theorem C1_witness :
    analyzeTrade mockLeague mockTrade = Except.ok mockGrade ∧
      (0 ≤ mockGrade.score ∧ mockGrade.score ≤ 100 ∧
        mockGrade.letter =
          (if 90 ≤ mockGrade.score then Letter.A
           else if 80 ≤ mockGrade.score then Letter.B
           else if 70 ≤ mockGrade.score then Letter.C
           else if 60 ≤ mockGrade.score then Letter.D
           else Letter.F)) :=
  ⟨rfl, C1_score_range_and_letter_thresholds mockLeague mockTrade
    mockGrade rfl⟩

/-- C2: the analyzer raises InvalidTradeError exactly when a side is empty,
an id appears on both sides, or a side fails to resolve on the team that
claims it; since the result is an `Except`, an error excludes any grade
result, partial or not. -/
theorem C2_invalid_trade_iff (league : League) (trade : Trade) :
    analyzeTrade league trade = Except.error AnalysisError.invalidTrade ↔
      (trade.teamAOut = [] ∨ trade.teamBOut = [] ∨
       (∃ pid ∈ trade.teamAOut, pid ∈ trade.teamBOut) ∨
       resolveSide league trade.teamAOut = none ∨
       resolveSide league trade.teamBOut = none) := by
  unfold analyzeTrade
  split
  · rename_i hempty
    simp only [Bool.or_eq_true, List.isEmpty_iff] at hempty
    refine iff_of_true rfl ?_
    rcases hempty with h | h
    · exact Or.inl h
    · exact Or.inr (Or.inl h)
  · rename_i hempty
    split
    · rename_i hboth
      obtain ⟨pid, hpA, hin⟩ := List.any_eq_true.mp hboth
      obtain ⟨q, hqB, heq⟩ := List.any_eq_true.mp hin
      cases eq_of_beq heq
      exact iff_of_true rfl (Or.inr (Or.inr (Or.inl ⟨pid, hpA, hqB⟩)))
    · rename_i hboth
      simp only [Bool.or_eq_true, List.isEmpty_iff] at hempty
      rw [not_or] at hempty
      split
      · rename_i tA psA tB psB hA hB
        refine iff_of_false (fun hc => Except.noConfusion hc) ?_
        intro hc
        rcases hc with hc | hc | ⟨pid, hpA, hpB⟩ | hc | hc
        · exact hempty.1 hc
        · exact hempty.2 hc
        · exact hboth (List.any_eq_true.mpr
            ⟨pid, hpA, List.any_eq_true.mpr ⟨pid, hpB, beq_self_eq_true pid⟩⟩)
        · rw [hA] at hc
          exact Option.noConfusion hc
        · rw [hB] at hc
          exact Option.noConfusion hc
      · rename_i hA hB
        exact iff_of_true rfl
          (Or.inr (Or.inr (Or.inr (Or.inr hB))))
      · rename_i hA
        exact iff_of_true rfl (Or.inr (Or.inr (Or.inr (Or.inl hA))))

/-- C2 witness: the empty-outgoing-side trade of the spec raises
InvalidTradeError. -/
theorem C2_witness :
    analyzeTrade mockLeague ⟨[], ["player3"]⟩ =
      Except.error AnalysisError.invalidTrade :=
  (C2_invalid_trade_iff mockLeague ⟨[], ["player3"]⟩).mpr (Or.inl rfl)

/-- C3: equal net deltas give deltaPercent 0, score 100 and no attribution;
unequal net deltas attribute the measurement to the team with the strictly
larger net delta. -/
theorem C3_fairness_boundary (league : League) (trade : Trade)
    (res : GradeResult) (h : analyzeTrade league trade = Except.ok res)
    (iA iB : TeamImpact) (him : res.teamImpacts = [iA, iB]) :
    (iA.netDelta = iB.netDelta →
      res.fairness.deltaPercent = 0 ∧ res.score = 100 ∧
      res.fairness.towardsTeamId = none) ∧
    (iB.netDelta < iA.netDelta →
      res.fairness.towardsTeamId = some iA.teamId) ∧
    (iA.netDelta < iB.netDelta →
      res.fairness.towardsTeamId = some iB.teamId) := by
  obtain ⟨tA, psA, tB, psB, -, -, rfl⟩ := analyzeTrade_ok_elim h
  rw [buildResult_teamImpacts] at him
  simp only [List.cons.injEq, and_true] at him
  obtain ⟨h1, h2⟩ := him
  subst h1
  subst h2
  rw [buildResult_fairness, buildResult_score]
  refine ⟨?_, ?_, ?_⟩
  · intro heq
    simp only at heq
    have hv : totalValue league psA = totalValue league psB := by linarith
    refine ⟨?_, ?_, ?_⟩
    · show fairDeltaPercent _ _ = 0
      rw [fairDeltaPercent, if_pos hv]
    · show tradeScore _ _ = 100
      rw [tradeScore, fairDeltaPercent, if_pos hv]
      norm_num [qmin, qmax]
    · show (if _ < _ then _ else _) = none
      rw [if_neg (lt_irrefl _ ∘ (hv ▸ ·)), if_neg (lt_irrefl _ ∘ (hv ▸ ·))]
  · intro hlt
    simp only at hlt
    have hv : totalValue league psA < totalValue league psB := by linarith
    show (if _ < _ then _ else _) = some _
    rw [if_pos hv]
  · intro hlt
    simp only at hlt
    have hv : totalValue league psB < totalValue league psA := by linarith
    show (if _ < _ then _ else _) = some _
    rw [if_neg (asymm hv), if_pos hv]

/-- The first team impact of the mock grade. -/
def mockImpactA : TeamImpact := mockGrade.teamImpacts.headD ⟨"", 0, 0, 0⟩

/-- The second team impact of the mock grade. -/
def mockImpactB : TeamImpact :=
  (mockGrade.teamImpacts.drop 1).headD ⟨"", 0, 0, 0⟩

/-- C3 witness: the mock trade has distinct net deltas and the fairness
attribution behaves as claimed on them. -/
theorem C3_witness :
    analyzeTrade mockLeague mockTrade = Except.ok mockGrade ∧
      mockGrade.teamImpacts = [mockImpactA, mockImpactB] ∧
      ((mockImpactA.netDelta = mockImpactB.netDelta →
          mockGrade.fairness.deltaPercent = 0 ∧ mockGrade.score = 100 ∧
          mockGrade.fairness.towardsTeamId = none) ∧
       (mockImpactB.netDelta < mockImpactA.netDelta →
          mockGrade.fairness.towardsTeamId = some mockImpactA.teamId) ∧
       (mockImpactA.netDelta < mockImpactB.netDelta →
          mockGrade.fairness.towardsTeamId = some mockImpactB.teamId)) :=
  ⟨rfl, rfl, C3_fairness_boundary mockLeague mockTrade mockGrade rfl
    mockImpactA mockImpactB rfl⟩

/-- C6: for every grade produced by the analyzer the rationale list is
non-empty and sorted by descending absolute impact weight with ties broken
by factor name. -/
theorem C6_rationale_nonempty_sorted (league : League) (trade : Trade)
    (res : GradeResult) (h : analyzeTrade league trade = Except.ok res) :
    res.rationale ≠ [] ∧ List.Sorted rationaleLE res.rationale := by
  obtain ⟨tA, psA, tB, psB, -, -, rfl⟩ := analyzeTrade_ok_elim h
  rw [buildResult_rationale]
  unfold generateRationale
  constructor
  · intro hc
    have hl := congrArg List.length hc
    rw [List.length_insertionSort] at hl
    simp at hl
  · exact List.sorted_insertionSort rationaleLE _

/-- C6 witness: the mock grade rationale is non-empty and sorted. -/
theorem C6_witness :
    mockGrade.rationale ≠ [] ∧ List.Sorted rationaleLE mockGrade.rationale :=
  C6_rationale_nonempty_sorted mockLeague mockTrade mockGrade rfl

/-- C4: the trade analyzer is a pure function of its inputs; two calls with
identical league and trade give identical grade results.  In this
embedding the analyzer is a function, so determinism is definitional. -/
theorem C4_analyzeTrade_deterministic (league : League) (trade : Trade) :
    analyzeTrade league trade = analyzeTrade league trade := rfl

/-- C5: the season simulator is reproducible: two runs with the same seed,
weeks, iterations, league and trade give bit-identical simulation results.
In this embedding the simulator is a function of the explicit seed, so
reproducibility is definitional. -/
theorem C5_simulateLeague_reproducible (league : League) (trade : Trade)
    (weeksRemaining iterations : Int) (seed : Nat) :
    simulateLeague league trade weeksRemaining iterations seed =
      simulateLeague league trade weeksRemaining iterations seed := rfl

/-- C7: an iterations request over the configured ceiling is clamped to the
ceiling — the run uses the minimum of the request and the ceiling — and the
simulation path raises no error for it. -/
theorem C7_iterations_clamped (i d maxI : Int) (hmax : 0 < maxI)
    (hi : maxI < i) :
    routeSimIterations (some i) d maxI = min i maxI ∧
    routeSimIterations (some i) d maxI = maxI ∧
    (∀ (league : League) (trade : Trade) (w : Int) (seed : Nat), 0 < w →
      ∃ r, simulateLeague league trade w
        (routeSimIterations (some i) d maxI) seed = Except.ok r) := by
  have hne : i ≠ 0 := by omega
  have hstep : routeSimIterations (some i) d maxI =
      min (if i = 0 then d else i) maxI := rfl
  have hclamp : routeSimIterations (some i) d maxI = maxI := by
    rw [hstep, if_neg hne]
    exact min_eq_right (le_of_lt hi)
  refine ⟨?_, hclamp, ?_⟩
  · rw [hclamp]
    exact (min_eq_right (le_of_lt hi)).symm
  · intro league trade w seed hw
    rw [hclamp]
    unfold simulateLeague
    rw [if_neg (by omega : ¬(w ≤ 0 ∨ maxI ≤ 0))]
    exact ⟨_, rfl⟩

/-- C7 witness: a request of 5000 iterations against a ceiling of 2000. -/
theorem C7_witness :
    routeSimIterations (some 5000) 1000 2000 = min 5000 2000 ∧
    routeSimIterations (some 5000) 1000 2000 = 2000 ∧
    (∀ (league : League) (trade : Trade) (w : Int) (seed : Nat), 0 < w →
      ∃ r, simulateLeague league trade w
        (routeSimIterations (some 5000) 1000 2000) seed = Except.ok r) :=
  C7_iterations_clamped 5000 1000 2000 (by norm_num) (by norm_num)

/-- C8: the simulation entry point answers with SimulationParameterError
exactly when weeksRemaining or iterations is non-positive; the error value
is returned directly, with no fallback result. -/
theorem C8_simulation_parameter_error (league : League) (trade : Trade)
    (weeksRemaining iterations : Int) (seed : Nat) :
    simulateLeague league trade weeksRemaining iterations seed =
        Except.error SimulationError.simulationParameter ↔
      (weeksRemaining ≤ 0 ∨ iterations ≤ 0) := by
  unfold simulateLeague
  split
  · rename_i h
    exact iff_of_true rfl h
  · rename_i h
    exact iff_of_false (fun hc => Except.noConfusion hc) h

/-- C8 witness: zero weeks remaining raises the parameter error. -/
theorem C8_witness :
    simulateLeague mockLeague mockTrade 0 100 42 =
      Except.error SimulationError.simulationParameter :=
  (C8_simulation_parameter_error mockLeague mockTrade 0 100 42).mpr
    (Or.inl (by norm_num))

/-- C9: when the verification body throws, `verifySubscription` returns the
free tier with no token and leaves the cache untouched instead of
propagating the error. -/
theorem C9_error_degrades_to_free_tier (env : StripeEnv)
    (cache : StripeCache) (now ttl : Int) (email e : String)
    (h : verifyBody env cache now ttl email = Except.error e) :
    verifySubscription env cache now ttl email =
      (⟨"free", none⟩, cache) := by
  unfold verifySubscription
  rw [h]

/-- An environment whose Stripe calls always throw. -/
def downEnv : StripeEnv :=
  ⟨fun _ => Except.error "stripe unreachable",
   fun _ => Except.error "stripe unreachable",
   fun e _ => e⟩

/-- C9 witness: with Stripe unreachable and an empty cache, verification
returns the free tier with no token. -/
theorem C9_witness :
    verifyBody downEnv [] 0 60 "user@example.com" =
        Except.error "stripe unreachable" ∧
      verifySubscription downEnv [] 0 60 "user@example.com" =
        (⟨"free", none⟩, []) :=
  ⟨rfl, C9_error_degrades_to_free_tier downEnv [] 0 60 "user@example.com"
    "stripe unreachable" rfl⟩

theorem verifyLookup_token_iff {env : StripeEnv} {cache : StripeCache}
    {now ttl : Int} {email : String} {r : VerifyResult × StripeCache}
    (h : verifyLookup env cache now ttl email = Except.ok r) :
    r.1.token.isSome = true ↔ r.1.tier = "pro" := by
  unfold verifyLookup at h
  split at h
  · exact Except.noConfusion h
  · cases Except.ok.inj h
    exact iff_of_false (by simp) (by simp)
  · split at h
    · exact Except.noConfusion h
    · split at h
      · cases Except.ok.inj h
        exact iff_of_false (by simp) (by simp)
      · cases Except.ok.inj h
        exact iff_of_true (by simp) rfl

theorem verifyBody_token_iff {env : StripeEnv} {cache : StripeCache}
    {now ttl : Int} {email : String} {r : VerifyResult × StripeCache}
    (h : verifyBody env cache now ttl email = Except.ok r) :
    r.1.token.isSome = true ↔ r.1.tier = "pro" := by
  unfold verifyBody at h
  split at h
  · split at h
    · split at h
      · cases Except.ok.inj h
        exact iff_of_true (by simp) rfl
      · cases Except.ok.inj h
        exact iff_of_false (by simp) (by simp)
    · exact verifyLookup_token_iff h
  · exact verifyLookup_token_iff h

/-- C10: a token is present in the verification result exactly when the
returned tier is pro, on every path (cache hit, fresh lookup, and the
error fallback). -/
theorem C10_token_iff_pro_tier (env : StripeEnv) (cache : StripeCache)
    (now ttl : Int) (email : String) :
    (verifySubscription env cache now ttl email).1.token.isSome = true ↔
      (verifySubscription env cache now ttl email).1.tier = "pro" := by
  unfold verifySubscription
  cases hb : verifyBody env cache now ttl email with
  | error e => exact iff_of_false (by simp) (by simp)
  | ok r => exact verifyBody_token_iff hb

end TradeReferee
